import Mathlib

/-!
Verification development for the voter ingestion pipeline
(`src/airflow/dags/voter_ingestion_dag.py` and
`src/airflow/dags/utils/helpers.py`).

The first part embeds `compute_file_hash` from `utils/helpers.py`: the
chunked file read is modelled over a byte list, and `hashlib.sha256`
(an external library, FIPS 180-4) is modelled by a genuine SHA-256
implementation whose streaming `update` accumulates the fed bytes.

The second part embeds the DAG's task callables
(`_branch_on_new_data`, `_load_csv_to_raw`, `_update_metadata`,
`get_last_processed_hash`, `is_new_data`) over an explicit database
state, and the task wiring
`check_csv_file >> create_raw_tables >> check_for_new_data >>
[no_new_data, load_csv_to_raw]`,
`load_csv_to_raw >> trigger_dbt_run >> update_metadata >> finish`,
`no_new_data >> finish` as a run function producing an effect trace.
-/

/-! ## SHA-256 model (for `hashlib.sha256` used by `compute_file_hash`) -/

/-- Right rotation of a 32-bit word, as in FIPS 180-4. -/
def rotr (x n : Nat) : Nat :=
  ((x >>> n) ||| (x <<< (32 - n))) % 2 ^ 32

/-- Logical right shift of a 32-bit word. -/
def shr (x n : Nat) : Nat :=
  x >>> n

/-- SHA-256 Σ0. -/
def bigSigma0 (x : Nat) : Nat :=
  rotr x 2 ^^^ rotr x 13 ^^^ rotr x 22

/-- SHA-256 Σ1. -/
def bigSigma1 (x : Nat) : Nat :=
  rotr x 6 ^^^ rotr x 11 ^^^ rotr x 25

/-- SHA-256 σ0. -/
def smallSigma0 (x : Nat) : Nat :=
  rotr x 7 ^^^ rotr x 18 ^^^ shr x 3

/-- SHA-256 σ1. -/
def smallSigma1 (x : Nat) : Nat :=
  rotr x 17 ^^^ rotr x 19 ^^^ shr x 10

/-- SHA-256 Ch(x,y,z); the complement is taken within 32 bits. -/
def ch (x y z : Nat) : Nat :=
  (x &&& y) ^^^ ((x ^^^ 0xffffffff) &&& z)

/-- SHA-256 Maj(x,y,z). -/
def maj (x y z : Nat) : Nat :=
  (x &&& y) ^^^ (x &&& z) ^^^ (y &&& z)

/-- Rows 0 and 1 of the SHA-256 round-constant table. -/
def sha256Krow0 : List Nat :=
  [0x428a2f98, 0x71374491, 0xb5c0fbcf, 0xe9b5dba5,
   0x3956c25b, 0x59f111f1, 0x923f82a4, 0xab1c5ed5] ++
  [0xd807aa98, 0x12835b01, 0x243185be, 0x550c7dc3,
   0x72be5d74, 0x80deb1fe, 0x9bdc06a7, 0xc19bf174]

/-- Rows 2 and 3 of the SHA-256 round-constant table. -/
def sha256Krow2 : List Nat :=
  [0xe49b69c1, 0xefbe4786, 0x0fc19dc6, 0x240ca1cc,
   0x2de92c6f, 0x4a7484aa, 0x5cb0a9dc, 0x76f988da] ++
  [0x983e5152, 0xa831c66d, 0xb00327c8, 0xbf597fc7,
   0xc6e00bf3, 0xd5a79147, 0x06ca6351, 0x14292967]

/-- Rows 4 and 5 of the SHA-256 round-constant table. -/
def sha256Krow4 : List Nat :=
  [0x27b70a85, 0x2e1b2138, 0x4d2c6dfc, 0x53380d13,
   0x650a7354, 0x766a0abb, 0x81c2c92e, 0x92722c85] ++
  [0xa2bfe8a1, 0xa81a664b, 0xc24b8b70, 0xc76c51a3,
   0xd192e819, 0xd6990624, 0xf40e3585, 0x106aa070]

/-- Rows 6 and 7 of the SHA-256 round-constant table. -/
def sha256Krow6 : List Nat :=
  [0x19a4c116, 0x1e376c08, 0x2748774c, 0x34b0bcb5,
   0x391c0cb3, 0x4ed8aa4a, 0x5b9cca4f, 0x682e6ff3] ++
  [0x748f82ee, 0x78a5636f, 0x84c87814, 0x8cc70208,
   0x90befffa, 0xa4506ceb, 0xbef9a3f7, 0xc67178f2]

/-- The 64 SHA-256 round constants of FIPS 180-4. -/
def sha256K : List Nat :=
  sha256Krow0 ++ sha256Krow2 ++ sha256Krow4 ++ sha256Krow6

/-- The eight 32-bit working variables of the SHA-256 state. -/
structure Hash8 where
  a : Nat
  b : Nat
  c : Nat
  d : Nat
  e : Nat
  f : Nat
  g : Nat
  h : Nat
  deriving DecidableEq

/-- The SHA-256 initial hash value. -/
def initH : Hash8 :=
  { a := 0x6a09e667, b := 0xbb67ae85, c := 0x3c6ef372, d := 0xa54ff53a,
    e := 0x510e527f, f := 0x9b05688c, g := 0x1f83d9ab, h := 0x5be0cd19 }

/-- One SHA-256 round with round constant `k` and schedule word `w`. -/
def sha256Round (st : Hash8) (k w : Nat) : Hash8 :=
  let t1 := (st.h + bigSigma1 st.e + ch st.e st.f st.g + k + w) % 2 ^ 32
  let t2 := (bigSigma0 st.a + maj st.a st.b st.c) % 2 ^ 32
  { a := (t1 + t2) % 2 ^ 32, b := st.a, c := st.b, d := st.c,
    e := (st.d + t1) % 2 ^ 32, f := st.e, g := st.f, h := st.g }

/-- Split a byte list into chunks of `c` bytes, with an explicit fuel bound.
Models repeated `handle.read(chunk_size)` calls: a read of size 0 returns
the empty sentinel immediately, ending the loop. -/
def readChunksAux (fuel : Nat) (bs : List Nat) (c : Nat) : List (List Nat) :=
  match fuel with
  | 0 => []
  | fuel + 1 =>
    if c = 0 ∨ bs = [] then []
    else bs.take c :: readChunksAux fuel (bs.drop c) c

/-- Split a byte list into successive chunks of `c` bytes
(`iter(lambda: handle.read(chunk_size), b"")` in `compute_file_hash`). -/
def readChunks (bs : List Nat) (c : Nat) : List (List Nat) :=
  readChunksAux bs.length bs c

/-- Big-endian packing of a 64-byte block into sixteen 32-bit words. -/
def wordsOfBlock (block : List Nat) : List Nat :=
  (readChunks block 4).map (fun b4 => b4.foldl (fun acc b => acc * 256 + b % 256) 0)

/-- Append the next message-schedule word
`w[t] = σ1(w[t-2]) + w[t-7] + σ0(w[t-15]) + w[t-16] mod 2^32`. -/
def scheduleStep (ws : List Nat) : List Nat :=
  let n := ws.length
  ws ++ [(smallSigma1 (ws.getD (n - 2) 0) + ws.getD (n - 7) 0 +
          smallSigma0 (ws.getD (n - 15) 0) + ws.getD (n - 16) 0) % 2 ^ 32]

/-- Extend the sixteen block words to the full 64-word message schedule. -/
def fullSchedule (ws : List Nat) : List Nat :=
  (List.range 48).foldl (fun acc _ => scheduleStep acc) ws

/-- SHA-256 compression of one 64-byte block into the running hash value. -/
def compressBlock (H : Hash8) (block : List Nat) : Hash8 :=
  let ws := fullSchedule (wordsOfBlock block)
  let st := (sha256K.zip ws).foldl (fun s kw => sha256Round s kw.1 kw.2) H
  { a := (H.a + st.a) % 2 ^ 32, b := (H.b + st.b) % 2 ^ 32,
    c := (H.c + st.c) % 2 ^ 32, d := (H.d + st.d) % 2 ^ 32,
    e := (H.e + st.e) % 2 ^ 32, f := (H.f + st.f) % 2 ^ 32,
    g := (H.g + st.g) % 2 ^ 32, h := (H.h + st.h) % 2 ^ 32 }

/-- The bit length of the message as eight big-endian bytes. -/
def beBytes8 (n : Nat) : List Nat :=
  [(n >>> 56) % 256, (n >>> 48) % 256, (n >>> 40) % 256, (n >>> 32) % 256,
   (n >>> 24) % 256, (n >>> 16) % 256, (n >>> 8) % 256, n % 256]

/-- SHA-256 padding: a 0x80 byte, zeros, and the 64-bit message bit length,
bringing the total length to a multiple of 64 bytes. -/
def padMessage (msg : List Nat) : List Nat :=
  let L := msg.length
  let zeros := (64 - (L + 9) % 64) % 64
  msg ++ [0x80] ++ List.replicate zeros 0 ++ beBytes8 (8 * L)

/-- The final SHA-256 hash state of a byte list. -/
def sha256Words (msg : List Nat) : Hash8 :=
  (readChunks (padMessage msg) 64).foldl compressBlock initH

/-- The SHA-256 digest of a byte list as one natural number below `2^256`. -/
def sha256Nat (msg : List Nat) : Nat :=
  let st := sha256Words msg
  [st.a, st.b, st.c, st.d, st.e, st.f, st.g, st.h].foldl
    (fun acc w => acc * 2 ^ 32 + w % 2 ^ 32) 0

/-- One lowercase hexadecimal digit: 0-9 then a-f, by character code. -/
def hexDigit (d : Nat) : Char :=
  if d < 10 then Char.ofNat (48 + d) else Char.ofNat (87 + d)

/-- A natural number rendered as 64 big-endian lowercase hex digits,
as `hashlib`'s `hexdigest()` renders a 256-bit digest. -/
def natToHex64 (n : Nat) : String :=
  String.mk ((List.range 64).map (fun i => hexDigit ((n >>> (4 * (63 - i))) % 16)))

/-- The hex digest of the SHA-256 of a byte list
(`hashlib.sha256(...).hexdigest()`). -/
def sha256hex (msg : List Nat) : String :=
  natToHex64 (sha256Nat msg)

/-- Embeds `compute_file_hash` from `utils/helpers.py`: the file is read in
`chunk_size`-byte chunks, each chunk is fed to the hasher (`hasher.update`),
and the hex digest of the accumulated stream is returned. -/
def compute_file_hash (bs : List Nat) (chunk_size : Nat) : String :=
  sha256hex ((readChunks bs chunk_size).foldl (fun acc chunk => acc ++ chunk) [])

/-! ## Database state and ledger (DuckDB tables) -/

/-- One row of `raw.voters`: the eleven staged CSV columns plus the two
provenance columns `load_timestamp` and `source_file_hash` added by the
staging `SELECT` in `_load_csv_to_raw`. -/
structure VoterRow where
  id : Nat
  first_name : String
  last_name : String
  age : String
  gender : String
  state : String
  party : String
  email : String
  registered_date : String
  last_voted_date : String
  updated_at : String
  load_timestamp : Nat
  source_file_hash : String
  deriving DecidableEq

/-- One row of `metadata.voter_ingestion_audit`, exactly the columns of the
`INSERT` in `_update_metadata`; `ingested_at` is a logical timestamp. -/
structure LedgerEntry where
  ingestion_id : String
  file_hash : String
  source_path : String
  file_row_count : Nat
  inserted_row_count : Nat
  load_status : String
  dag_run_id : String
  ingested_at : Nat
  deriving DecidableEq

/-- The DuckDB database state: the raw table's rows in insertion order, and
the metadata table, `none` while the table does not yet exist. -/
structure DB where
  raw : List VoterRow
  metaTable : Option (List LedgerEntry)
  deriving DecidableEq

/-- The ledger entries currently stored (empty when the table is absent). -/
def ledgerEntries (db : DB) : List LedgerEntry :=
  db.metaTable.getD []

/-- The entry with the greatest `ingested_at`
(`ORDER BY ingested_at DESC LIMIT 1`); earlier entries win ties. -/
def latestEntry (entries : List LedgerEntry) : Option LedgerEntry :=
  entries.foldl
    (fun acc e =>
      match acc with
      | none => some e
      | some m => if m.ingested_at < e.ingested_at then some e else some m)
    none

/-- Embeds `get_last_processed_hash` from `utils/helpers.py`: `none` when the
metadata table does not exist (`information_schema` probe), otherwise the
`file_hash` of the most recent entry, `none` again when the table is empty. -/
def get_last_processed_hash (db : DB) : Option String :=
  match db.metaTable with
  | none => none
  | some entries => (latestEntry entries).map LedgerEntry.file_hash

/-- Embeds `is_new_data` from `utils/helpers.py`:
`last_hash is None or current_hash != last_hash`. -/
def is_new_data (current_hash : String) (last_hash : Option String) : Bool :=
  match last_hash with
  | none => true
  | some h => current_hash != h

/-! ## CSV staging (`read_csv_auto` plus the staging `SELECT`) -/

/-- A candidate CSV file: a header row naming columns, then data records. -/
structure CsvFile where
  header : List String
  records : List (List String)
  deriving DecidableEq

/-- The columns the staging `SELECT` of `_load_csv_to_raw` projects. -/
def expectedColumns : List String :=
  ["id", "first_name", "last_name", "age", "gender", "state", "party",
   "email", "registered_date", "last_voted_date", "updated_at"]

/-- One parsed data row of the candidate CSV (before provenance tagging). -/
structure CsvRow where
  id : Nat
  first_name : String
  last_name : String
  age : String
  gender : String
  state : String
  party : String
  email : String
  registered_date : String
  last_voted_date : String
  updated_at : String
  deriving DecidableEq

/-- The value of column `col` in `record`, located by header position. -/
def getColumn (header record : List String) (col : String) : Option String :=
  (header.findIdx? (fun c => c == col)).bind (fun i => record.get? i)

/-- Decimal value of the digit characters, accumulating left to right;
fails on any non-digit character. -/
def strToNatAux : List Char → Nat → Option Nat
  | [], acc => some acc
  | ch :: rest, acc =>
    if ch.isDigit then strToNatAux rest (acc * 10 + (ch.toNat - 48))
    else none

/-- Models the integer typing of the `id` column applied by
`read_csv_auto`: a nonempty all-digit string parses, anything else fails. -/
def strToNat (s : String) : Option Nat :=
  match s.data with
  | [] => none
  | chars => strToNatAux chars 0

/-- Parse one CSV record against the header: fails on a row of the wrong
arity, a missing projected column, or an unparseable `id`. -/
def parseRecord (header record : List String) : Option CsvRow :=
  if record.length = header.length then do
    let idStr ← getColumn header record "id"
    let idv ← strToNat idStr
    let fn ← getColumn header record "first_name"
    let ln ← getColumn header record "last_name"
    let ag ← getColumn header record "age"
    let ge ← getColumn header record "gender"
    let st ← getColumn header record "state"
    let pa ← getColumn header record "party"
    let em ← getColumn header record "email"
    let rd ← getColumn header record "registered_date"
    let lv ← getColumn header record "last_voted_date"
    let ua ← getColumn header record "updated_at"
    pure { id := idv, first_name := fn, last_name := ln, age := ag,
           gender := ge, state := st, party := pa, email := em,
           registered_date := rd, last_voted_date := lv, updated_at := ua }
  else none

/-- Parse the whole candidate file, as `read_csv_auto` plus the staging
projection would: fails when a projected column is missing from the header
or any record is malformed; on failure nothing is staged. -/
def parseCsv (f : CsvFile) : Option (List CsvRow) :=
  if expectedColumns.all (fun c => f.header.contains c) then
    f.records.mapM (parseRecord f.header)
  else none

/-- Tag one parsed row with `load_timestamp` and `source_file_hash`, as the
staging `SELECT` of `_load_csv_to_raw` does. -/
def stageRow (r : CsvRow) (file_hash : String) (t : Nat) : VoterRow :=
  { id := r.id, first_name := r.first_name, last_name := r.last_name,
    age := r.age, gender := r.gender, state := r.state, party := r.party,
    email := r.email, registered_date := r.registered_date,
    last_voted_date := r.last_voted_date, updated_at := r.updated_at,
    load_timestamp := t, source_file_hash := file_hash }

/-! ## The DAG task callables -/

/-- The XCom payload produced by `check_csv_file` (`_resolve_csv_payload`). -/
structure Payload where
  csv_path : String
  file_hash : String
  row_count : Nat
  deriving DecidableEq

/-- Modelled from the spec: `_create_tables` runs
`dags/sql/create_tables.sql` (not present under `src/`); per the spec's
`ensureSchema()` it idempotently creates the raw and metadata tables when
absent, leaving existing contents untouched. -/
def ensureSchema (db : DB) : DB :=
  { raw := db.raw, metaTable := some (db.metaTable.getD []) }

/-- Embeds `_branch_on_new_data`: compare the payload's hash with the last
processed hash and return the task id of the branch to follow. -/
def branchOnNewData (db : DB) (payload : Payload) : String :=
  if is_new_data payload.file_hash (get_last_processed_hash db) then
    "load_csv_to_raw"
  else
    "no_new_data"

/-- The `staged_voters` temp table of `_load_csv_to_raw`: every parsed row
tagged with the file hash and the load timestamp. -/
def staged_voters (rows : List CsvRow) (file_hash : String) (t : Nat) :
    List VoterRow :=
  rows.map (fun r => stageRow r file_hash t)

/-- The `incremental_voters` temp table of `_load_csv_to_raw`: the staged
rows whose `id` does not already occur in `raw.voters` (`NOT EXISTS`). -/
def incremental_voters (db : DB) (staged : List VoterRow) : List VoterRow :=
  staged.filter (fun sv => !(db.raw.any (fun rv => rv.id == sv.id)))

/-- Embeds `_load_csv_to_raw`: stage the file's rows tagged with the file
hash and timestamp, anti-join them against `raw.voters` by `id`
(`NOT EXISTS`), and insert the difference only when it is non-empty.
Returns `none` when staging fails (malformed file), otherwise the new
database state and the count of rows inserted. -/
def loadCsvToRaw (db : DB) (payload : Payload) (file : CsvFile) (t : Nat) :
    Option (DB × Nat) :=
  match parseCsv file with
  | none => none
  | some rows =>
    let staged := staged_voters rows payload.file_hash t
    let incremental := incremental_voters db staged
    let inserted_rows := incremental.length
    if inserted_rows ≠ 0 then
      some ({ db with raw := db.raw ++ incremental }, inserted_rows)
    else
      some (db, inserted_rows)

/-- Embeds `_update_metadata`: count the raw rows whose `source_file_hash`
equals the payload's hash, and append one ledger entry whose status is
`success` when that count is non-zero and `no-op` otherwise. -/
def updateMetadata (db : DB) (payload : Payload)
    (ingestionId runId : String) (t : Nat) : DB :=
  let inserted_rows :=
    (db.raw.filter (fun rv => rv.source_file_hash == payload.file_hash)).length
  let entry : LedgerEntry :=
    { ingestion_id := ingestionId, file_hash := payload.file_hash,
      source_path := payload.csv_path, file_row_count := payload.row_count,
      inserted_row_count := inserted_rows,
      load_status := if inserted_rows ≠ 0 then "success" else "no-op",
      dag_run_id := runId, ingested_at := t }
  { db with metaTable := some (db.metaTable.getD [] ++ [entry]) }

/-! ## The DAG wiring as a run function -/

/-- Externally visible effects of one run: a raw-table insert of `n` rows,
the dbt trigger (`trigger_dbt_run`), and the ledger append
(`update_metadata`). -/
inductive Event where
  | rawInsert (n : Nat)
  | dbtTrigger
  | ledgerAppend
  deriving DecidableEq

/-- Outcome of one DAG run: `failed` when a task raised (downstream tasks do
not run), or `completed` with the final database and the effect trace. -/
inductive RunOutcome where
  | failed (db : DB)
  | completed (db : DB) (trace : List Event)
  deriving DecidableEq

/-- The inputs of one DAG run: the XCom payload of `check_csv_file`, the
candidate file's content, the generated ingestion UUID, the Airflow run id,
and the run's wall-clock timestamp. -/
structure RunInput where
  payload : Payload
  file : CsvFile
  ingestionId : String
  runId : String
  t : Nat
  deriving DecidableEq

/-- One DAG run, following the task dependencies
`check_csv_file >> create_raw_tables >> check_for_new_data >>
[no_new_data, load_csv_to_raw]` and
`load_csv_to_raw >> trigger_dbt_run >> update_metadata >> finish`,
`no_new_data >> finish`. On the branch to `no_new_data` the run completes
with no further effects; on the branch to `load_csv_to_raw` a staging
failure fails the run (no downstream task executes), and otherwise
`trigger_dbt_run` fires and then `update_metadata` appends the ledger
entry. -/
def runPipeline (db0 : DB) (inp : RunInput) : RunOutcome :=
  let db := ensureSchema db0
  if branchOnNewData db inp.payload = "load_csv_to_raw" then
    match loadCsvToRaw db inp.payload inp.file inp.t with
    | none => RunOutcome.failed db
    | some (db1, n) =>
      let insertEvents := if n ≠ 0 then [Event.rawInsert n] else []
      let db2 := updateMetadata db1 inp.payload inp.ingestionId inp.runId inp.t
      RunOutcome.completed db2 (insertEvents ++ [Event.dbtTrigger, Event.ledgerAppend])
  else
    RunOutcome.completed db []

/-- The database state an outcome leaves behind. -/
def outcomeDb : RunOutcome → DB
  | RunOutcome.failed db => db
  | RunOutcome.completed db _ => db

/-- A sequence of DAG runs; each run starts from the state the previous run
left (a failed run leaves its state to the next scheduled run). -/
def runSeq (db : DB) (inputs : List RunInput) : DB :=
  inputs.foldl (fun d i => outcomeDb (runPipeline d i)) db

/-- The empty initial database: no raw rows, no metadata table yet. -/
def emptyDB : DB :=
  { raw := [], metaTable := none }

/-- The effect trace of a run, `none` when the run failed. -/
def runTrace (db : DB) (inp : RunInput) : Option (List Event) :=
  match runPipeline db inp with
  | RunOutcome.failed _ => none
  | RunOutcome.completed _ trace => some trace

/-- A sample CSV record with the given id, in `expectedColumns` order. -/
def sampleRecord (i : Nat) : List String :=
  [toString i, "Ann", "Lee", "30", "F", "CA", "IND", "a@x.com",
   "2020-01-01", "2024-01-01", "2024-02-02"]

/-- A sample well-formed CSV file whose data rows carry the given ids. -/
def sampleFile (ids : List Nat) : CsvFile :=
  { header := expectedColumns, records := ids.map sampleRecord }

/-- A sample run input: a well-formed file with the given ids, a file hash,
and a timestamp also used as ingestion and run identifier. -/
def sampleInput (ids : List Nat) (file_hash : String) (t : Nat) : RunInput :=
  { payload := { csv_path := "/data/voters.csv", file_hash := file_hash,
                 row_count := ids.length },
    file := sampleFile ids, ingestionId := toString t, runId := toString t,
    t := t }

/-- A malformed candidate file: the `id` column is missing from the header. -/
def malformedFile : CsvFile :=
  { header := ["first_name"], records := [["Ann"]] }

/-- The parsed form of `sampleRecord i`. -/
def sampleRow (i : Nat) : CsvRow :=
  { id := i, first_name := "Ann", last_name := "Lee", age := "30",
    gender := "F", state := "CA", party := "IND", email := "a@x.com",
    registered_date := "2020-01-01", last_voted_date := "2024-01-01",
    updated_at := "2024-02-02" }

/-- The database after one load of `sampleFile [1]` under hash `a` at time 1
(before its metadata write). -/
def sampleLoadedDB : DB :=
  { raw := [stageRow (sampleRow 1) "a" 1], metaTable := some [] }

/-- A database whose existing ledger already records hash `a`. -/
def seenHashDB : DB :=
  { raw := [],
    metaTable := some
      [{ ingestion_id := "0", file_hash := "a",
         source_path := "/data/voters.csv", file_row_count := 1,
         inserted_row_count := 1, load_status := "success",
         dag_run_id := "0", ingested_at := 0 }] }

/-- A run input whose candidate file is malformed. -/
def malformedInput : RunInput :=
  { payload := { csv_path := "/data/voters.csv", file_hash := "m",
                 row_count := 1 },
    file := malformedFile, ingestionId := "w", runId := "w", t := 1 }

/-! ## Helper lemmas -/

/-- Staging keeps the `id` column unchanged. -/
theorem staged_ids (rows : List CsvRow) (fh : String) (t : Nat) :
    (staged_voters rows fh t).map VoterRow.id = rows.map CsvRow.id := by
  simp only [staged_voters, List.map_map]
  rfl

/-- Every staged row carries the staged file hash. -/
theorem staged_hash (rows : List CsvRow) (fh : String) (t : Nat) :
    ∀ sv ∈ staged_voters rows fh t, sv.source_file_hash = fh := by
  intro sv hsv
  obtain ⟨r, _, rfl⟩ := List.mem_map.mp hsv
  rfl

/-- Every incremental row carries the staged file hash. -/
theorem incremental_hash (db : DB) (rows : List CsvRow) (fh : String)
    (t : Nat) :
    ∀ sv ∈ incremental_voters db (staged_voters rows fh t),
      sv.source_file_hash = fh := by
  intro sv hsv
  exact staged_hash rows fh t sv (List.mem_of_mem_filter hsv)

/-- The anti-join keeps no row whose `id` is already in the raw table, so
every kept row has an `id` absent from the raw table. -/
theorem incremental_not_in_raw (db : DB) (staged : List VoterRow) :
    ∀ sv ∈ incremental_voters db staged, sv.id ∉ db.raw.map VoterRow.id := by
  intro sv hsv hmem
  have hpred := List.of_mem_filter hsv
  obtain ⟨rv, hrv, hid⟩ := List.mem_map.mp hmem
  rw [Bool.not_eq_true', List.any_eq_false] at hpred
  exact hpred rv hrv (by simp [hid])

/-- Structure of a successful `_load_csv_to_raw`: the file parsed, the
count returned is the size of the anti-join difference, the raw table
grows by exactly that difference, and the metadata table is untouched. -/
theorem loadCsvToRaw_spec (db : DB) (payload : Payload) (file : CsvFile)
    (t : Nat) (db1 : DB) (n : Nat)
    (h : loadCsvToRaw db payload file t = some (db1, n)) :
    ∃ rows, parseCsv file = some rows ∧
      n = (incremental_voters db (staged_voters rows payload.file_hash t)).length ∧
      db1.raw = db.raw ++ incremental_voters db (staged_voters rows payload.file_hash t) ∧
      db1.metaTable = db.metaTable := by
  unfold loadCsvToRaw at h
  cases hp : parseCsv file with
  | none => rw [hp] at h; exact absurd h (by simp)
  | some rows =>
    rw [hp] at h
    dsimp only at h
    refine ⟨rows, rfl, ?_⟩
    by_cases hn : (incremental_voters db (staged_voters rows payload.file_hash t)).length ≠ 0
    · rw [if_pos hn] at h
      obtain ⟨hdb, hcount⟩ := Prod.mk.injEq .. ▸ Option.some.injEq .. ▸ h
      subst hdb hcount
      exact ⟨rfl, rfl, rfl⟩
    · rw [if_neg hn] at h
      obtain ⟨hdb, hcount⟩ := Prod.mk.injEq .. ▸ Option.some.injEq .. ▸ h
      subst hdb hcount
      push_neg at hn
      rw [List.length_eq_zero] at hn
      simp [hn]

/-- Counting with `p` after filtering with `q` counts just `p` when `p`
implies `q` on the list. -/
theorem countP_and_of_imp {α : Type} (p q : α → Bool) :
    ∀ l : List α, (∀ a ∈ l, p a = true → q a = true) →
      (l.filter q).countP p = l.countP p := by
  intro l
  induction l with
  | nil => intro _; rfl
  | cons a l ih =>
    intro h
    rw [List.countP_filter] at ih ⊢
    rw [List.countP_cons, List.countP_cons,
      ih (fun b hb => h b (List.mem_cons_of_mem a hb))]
    by_cases hpa : p a = true
    · simp [hpa, h a (List.mem_cons_self a l) hpa]
    · simp [Bool.eq_false_iff.mpr hpa]

/-! ## Claim theorems -/

/-- Claim C8: when the metadata table does not exist (first-ever run),
`get_last_processed_hash` returns `none` rather than failing; likewise
when the table exists but is empty; in both cases `is_new_data` then
reports the file as new for every current digest. -/
theorem c8_first_load_absent :
    (∀ raw : List VoterRow,
      get_last_processed_hash { raw := raw, metaTable := none } = none) ∧
    (∀ raw : List VoterRow,
      get_last_processed_hash { raw := raw, metaTable := some [] } = none) ∧
    (∀ (current_hash : String) (raw : List VoterRow),
      is_new_data current_hash
        (get_last_processed_hash { raw := raw, metaTable := none }) = true) ∧
    (∀ (current_hash : String) (raw : List VoterRow),
      is_new_data current_hash
        (get_last_processed_hash { raw := raw, metaTable := some [] }) = true) := by
  refine ⟨fun _ => rfl, fun _ => rfl, fun _ _ => rfl, fun _ _ => rfl⟩

/-- Claim C9: `is_new_data` returns `true` exactly when the last digest is
absent or differs from the current digest; it is an exact equality test and
a pure function of its two arguments. -/
theorem c9_is_new_data_iff (current_hash : String) (last_hash : Option String) :
    is_new_data current_hash last_hash = true ↔
      (last_hash = none ∨ ∃ h, last_hash = some h ∧ current_hash ≠ h) := by
  cases last_hash with
  | none => simp [is_new_data]
  | some h => simp [is_new_data]

/-- Claim C6: re-running the load against a raw table already containing
all of the file's ids returns an inserted count of 0 and returns the
database state unchanged — the anti-join difference is empty, so no write
happens at all. -/
theorem c6_idempotent_load (db : DB) (payload : Payload) (file : CsvFile)
    (t : Nat) (rows : List CsvRow)
    (hp : parseCsv file = some rows)
    (hall : ∀ r ∈ rows, r.id ∈ db.raw.map VoterRow.id) :
    loadCsvToRaw db payload file t = some (db, 0) := by
  have hinc : incremental_voters db (staged_voters rows payload.file_hash t) = [] := by
    apply List.filter_eq_nil_iff.mpr
    intro sv hsv
    obtain ⟨r, hr, rfl⟩ := List.mem_map.mp hsv
    obtain ⟨rv, hrv, hid⟩ := List.mem_map.mp (hall r hr)
    simp only [Bool.not_eq_true', Bool.not_eq_false]
    exact List.any_eq_true.mpr ⟨rv, hrv, by simp [stageRow, hid]⟩
  unfold loadCsvToRaw
  rw [hp]
  dsimp only
  rw [hinc]
  simp

/-- Witness for C6: a file with ids 1 and 2 against a raw table holding
those ids loads zero rows and leaves the database untouched. -/
theorem c6_idempotent_load_witness :
    parseCsv (sampleFile [1, 2]) = some [sampleRow 1, sampleRow 2] ∧
    (∀ r ∈ [sampleRow 1, sampleRow 2],
      r.id ∈ (DB.mk [stageRow (sampleRow 1) "a" 1, stageRow (sampleRow 2) "a" 1]
        (some [])).raw.map VoterRow.id) ∧
    loadCsvToRaw
      (DB.mk [stageRow (sampleRow 1) "a" 1, stageRow (sampleRow 2) "a" 1] (some []))
      (Payload.mk "/data/voters.csv" "a" 2) (sampleFile [1, 2]) 2 =
      some (DB.mk [stageRow (sampleRow 1) "a" 1, stageRow (sampleRow 2) "a" 1]
        (some []), 0) :=
  ⟨by decide, by decide,
    c6_idempotent_load
      (DB.mk [stageRow (sampleRow 1) "a" 1, stageRow (sampleRow 2) "a" 1] (some []))
      (Payload.mk "/data/voters.csv" "a" 2) (sampleFile [1, 2]) 2
      [sampleRow 1, sampleRow 2] (by decide) (by decide)⟩

/-- Claim C5: rows of a single candidate file that share an id absent from
the raw table are all appended in the same run — the anti-join removes
duplicates only against the raw table, never within the staged file. -/
theorem c5_no_dedup_within_file (db : DB) (payload : Payload)
    (file : CsvFile) (t : Nat) (rows : List CsvRow) (k : Nat)
    (hp : parseCsv file = some rows)
    (hnot : k ∉ db.raw.map VoterRow.id)
    (hdup : 2 ≤ rows.countP (fun r => r.id == k)) :
    ∃ db1 n, loadCsvToRaw db payload file t = some (db1, n) ∧
      db1.raw.countP (fun rv => rv.id == k) = rows.countP (fun r => r.id == k) ∧
      2 ≤ db1.raw.countP (fun rv => rv.id == k) := by
  have hraw0 : db.raw.countP (fun rv => rv.id == k) = 0 := by
    apply List.countP_eq_zero.mpr
    intro rv hrv hk
    exact hnot (List.mem_map.mpr ⟨rv, hrv, by simpa using hk⟩)
  have hstaged : (staged_voters rows payload.file_hash t).countP
      (fun rv => rv.id == k) = rows.countP (fun r => r.id == k) := by
    unfold staged_voters
    rw [List.countP_map]
    rfl
  have hincCount : (incremental_voters db
        (staged_voters rows payload.file_hash t)).countP (fun rv => rv.id == k) =
      (staged_voters rows payload.file_hash t).countP (fun rv => rv.id == k) := by
    unfold incremental_voters
    apply countP_and_of_imp
    intro sv _ hk
    have hsvk : sv.id = k := by simpa using hk
    rw [Bool.not_eq_true', List.any_eq_false]
    intro rv hrv hb
    have hidk : rv.id = sv.id := by simpa using hb
    exact hnot (List.mem_map.mpr ⟨rv, hrv, by rw [hidk, hsvk]⟩)
  have hcount2 : 2 ≤ (incremental_voters db
      (staged_voters rows payload.file_hash t)).countP (fun rv => rv.id == k) := by
    rw [hincCount, hstaged]
    exact hdup
  have hlen : (incremental_voters db
      (staged_voters rows payload.file_hash t)).length ≠ 0 := by
    have hle := List.countP_le_length (fun rv : VoterRow => rv.id == k)
      (l := incremental_voters db (staged_voters rows payload.file_hash t))
    omega
  refine ⟨{ db with raw := db.raw ++
      incremental_voters db (staged_voters rows payload.file_hash t) },
    (incremental_voters db (staged_voters rows payload.file_hash t)).length,
    ?_, ?_, ?_⟩
  · unfold loadCsvToRaw
    rw [hp]
    dsimp only
    rw [if_pos hlen]
  · show (db.raw ++ incremental_voters db
      (staged_voters rows payload.file_hash t)).countP (fun rv => rv.id == k) =
      rows.countP (fun r => r.id == k)
    rw [List.countP_append, hraw0, hincCount, hstaged]
    omega
  · show 2 ≤ (db.raw ++ incremental_voters db
      (staged_voters rows payload.file_hash t)).countP (fun rv => rv.id == k)
    rw [List.countP_append, hraw0, hincCount, hstaged]
    omega

/-- Witness for C5: a file whose two rows both carry id 1, loaded into the
empty database, appends both rows. -/
theorem c5_no_dedup_within_file_witness :
    parseCsv (sampleFile [1, 1]) = some [sampleRow 1, sampleRow 1] ∧
    (1 : Nat) ∉ emptyDB.raw.map VoterRow.id ∧
    2 ≤ ([sampleRow 1, sampleRow 1]).countP (fun r => r.id == 1) ∧
    (∃ db1 n, loadCsvToRaw emptyDB (Payload.mk "/data/voters.csv" "a" 2)
        (sampleFile [1, 1]) 1 = some (db1, n) ∧
      db1.raw.countP (fun rv => rv.id == 1) =
        ([sampleRow 1, sampleRow 1]).countP (fun r => r.id == 1) ∧
      2 ≤ db1.raw.countP (fun rv => rv.id == 1)) :=
  ⟨by decide, by decide, by decide,
    c5_no_dedup_within_file emptyDB (Payload.mk "/data/voters.csv" "a" 2)
      (sampleFile [1, 1]) 1 [sampleRow 1, sampleRow 1] 1
      (by decide) (by decide) (by decide)⟩

/-- Claim C7: a malformed candidate file fails the staging step before any
row reaches the raw table: the run leaves the raw table's rows and the
ledger's entries exactly as before, and on the load branch the run fails
before `update_metadata`, so no ledger entry is written. -/
theorem c7_malformed_aborts (db : DB) (inp : RunInput)
    (hmal : parseCsv inp.file = none) :
    (outcomeDb (runPipeline db inp)).raw = db.raw ∧
    ledgerEntries (outcomeDb (runPipeline db inp)) = ledgerEntries db ∧
    (branchOnNewData (ensureSchema db) inp.payload = "load_csv_to_raw" →
      runPipeline db inp = RunOutcome.failed (ensureSchema db)) := by
  have hload : loadCsvToRaw (ensureSchema db) inp.payload inp.file inp.t = none := by
    unfold loadCsvToRaw
    rw [hmal]
  by_cases hb : branchOnNewData (ensureSchema db) inp.payload = "load_csv_to_raw"
  · have hrun : runPipeline db inp = RunOutcome.failed (ensureSchema db) := by
      unfold runPipeline
      dsimp only
      rw [if_pos hb, hload]
    rw [hrun]
    exact ⟨rfl, by simp [ledgerEntries, ensureSchema, outcomeDb], fun _ => rfl⟩
  · have hrun : runPipeline db inp = RunOutcome.completed (ensureSchema db) [] := by
      unfold runPipeline
      dsimp only
      rw [if_neg hb]
    rw [hrun]
    exact ⟨rfl, by simp [ledgerEntries, ensureSchema, outcomeDb],
      fun hcontra => absurd hcontra hb⟩

/-- Witness for C7: a file missing the `id` column, run against the empty
database, fails the load and leaves raw table and ledger unchanged. -/
theorem c7_malformed_aborts_witness :
    parseCsv malformedInput.file = none ∧
    ((outcomeDb (runPipeline emptyDB malformedInput)).raw = emptyDB.raw ∧
     ledgerEntries (outcomeDb (runPipeline emptyDB malformedInput)) =
       ledgerEntries emptyDB ∧
     (branchOnNewData (ensureSchema emptyDB) malformedInput.payload =
         "load_csv_to_raw" →
       runPipeline emptyDB malformedInput =
         RunOutcome.failed (ensureSchema emptyDB))) :=
  ⟨by decide, c7_malformed_aborts emptyDB malformedInput (by decide)⟩

/-- Claim C1 (amended): when the change detector reports the file as not
new, the run performs no load and no raw-table mutation — and appends NO
ledger entry: the skip branch goes `no_new_data >> pipeline_complete`,
bypassing `update_metadata`, so only load-branch invocations append
ledger entries. -/
theorem c1_skip_writes_nothing (db : DB) (inp : RunInput)
    (hskip : is_new_data inp.payload.file_hash
      (get_last_processed_hash (ensureSchema db)) = false) :
    runPipeline db inp = RunOutcome.completed (ensureSchema db) [] ∧
    (ensureSchema db).raw = db.raw ∧
    ledgerEntries (ensureSchema db) = ledgerEntries db := by
  have hb : branchOnNewData (ensureSchema db) inp.payload = "no_new_data" := by
    unfold branchOnNewData
    rw [hskip]
    simp
  refine ⟨?_, rfl, by simp [ledgerEntries, ensureSchema]⟩
  unfold runPipeline
  dsimp only
  rw [hb]
  rw [if_neg (by decide)]

/-- Witness for C1 (amended): re-running hash `a` against a ledger whose
last entry already records hash `a` completes with no effects. -/
theorem c1_skip_writes_nothing_witness :
    is_new_data (sampleInput [1] "a" 1).payload.file_hash
      (get_last_processed_hash (ensureSchema seenHashDB)) = false ∧
    (runPipeline seenHashDB (sampleInput [1] "a" 1) =
        RunOutcome.completed (ensureSchema seenHashDB) [] ∧
      (ensureSchema seenHashDB).raw = seenHashDB.raw ∧
      ledgerEntries (ensureSchema seenHashDB) = ledgerEntries seenHashDB) :=
  ⟨by decide,
    c1_skip_writes_nothing seenHashDB (sampleInput [1] "a" 1) (by decide)⟩

/-- Counterexample to C1 as stated: a skipped run appends NO ledger entry.
Re-running hash `a` against a ledger already holding one entry for hash `a`
completes with an empty effect trace and the ledger still holds exactly its
single original entry — not a second `no-op` entry. -/
theorem c1_skip_appends_entry_cex :
    runTrace seenHashDB (sampleInput [1] "a" 1) = some [] ∧
    ledgerEntries (outcomeDb (runPipeline seenHashDB (sampleInput [1] "a" 1))) =
      ledgerEntries seenHashDB ∧
    (ledgerEntries (outcomeDb
      (runPipeline seenHashDB (sampleInput [1] "a" 1)))).length = 1 := by
  decide

/-- Claim C2 (amended): in every run that loads data, the effect order is
raw-table insert, then downstream dbt trigger, then ledger append — the
transformation is triggered BEFORE the ledger write, per the wiring
`load_csv_to_raw >> trigger_dbt_run >> update_metadata`. -/
theorem c2_trigger_before_ledger (db : DB) (inp : RunInput) (db1 : DB)
    (n : Nat)
    (hb : branchOnNewData (ensureSchema db) inp.payload = "load_csv_to_raw")
    (hl : loadCsvToRaw (ensureSchema db) inp.payload inp.file inp.t =
      some (db1, n))
    (hn : n ≠ 0) :
    runPipeline db inp = RunOutcome.completed
      (updateMetadata db1 inp.payload inp.ingestionId inp.runId inp.t)
      [Event.rawInsert n, Event.dbtTrigger, Event.ledgerAppend] := by
  unfold runPipeline
  dsimp only
  rw [if_pos hb, hl]
  dsimp only
  rw [if_pos hn]
  rfl

/-- Witness for C2 (amended): the first load of `sampleFile [1]` produces
the trace insert, dbt trigger, ledger append, in that order. -/
theorem c2_trigger_before_ledger_witness :
    branchOnNewData (ensureSchema emptyDB) (sampleInput [1] "a" 1).payload =
      "load_csv_to_raw" ∧
    loadCsvToRaw (ensureSchema emptyDB) (sampleInput [1] "a" 1).payload
      (sampleInput [1] "a" 1).file (sampleInput [1] "a" 1).t =
      some (sampleLoadedDB, 1) ∧
    runPipeline emptyDB (sampleInput [1] "a" 1) = RunOutcome.completed
      (updateMetadata sampleLoadedDB (sampleInput [1] "a" 1).payload
        (sampleInput [1] "a" 1).ingestionId (sampleInput [1] "a" 1).runId
        (sampleInput [1] "a" 1).t)
      [Event.rawInsert 1, Event.dbtTrigger, Event.ledgerAppend] :=
  ⟨by decide, by decide,
    c2_trigger_before_ledger emptyDB (sampleInput [1] "a" 1) sampleLoadedDB 1
      (by decide) (by decide) (by decide)⟩

/-- Counterexample to C2 as stated: in a concrete loading run the dbt
trigger occurs at an earlier trace position than the ledger append, so the
transformation is signaled BEFORE the ledger write completes. -/
theorem c2_trigger_order_cex :
    runTrace emptyDB (sampleInput [1] "a" 1) =
      some [Event.rawInsert 1, Event.dbtTrigger, Event.ledgerAppend] ∧
    List.indexOf Event.dbtTrigger
      [Event.rawInsert 1, Event.dbtTrigger, Event.ledgerAppend] <
    List.indexOf Event.ledgerAppend
      [Event.rawInsert 1, Event.dbtTrigger, Event.ledgerAppend] := by
  decide

/-- The ledger entry `_update_metadata` appends: its `inserted_row_count`
is the count of raw rows carrying the payload's file hash, and its status
is `success` exactly when that count is non-zero. -/
theorem updateMetadata_entry (db : DB) (payload : Payload)
    (ingestionId runId : String) (t : Nat) :
    ∃ e : LedgerEntry,
      ledgerEntries (updateMetadata db payload ingestionId runId t) =
        ledgerEntries db ++ [e] ∧
      e.inserted_row_count =
        db.raw.countP (fun rv => rv.source_file_hash == payload.file_hash) ∧
      (e.load_status = "success" ↔ e.inserted_row_count ≠ 0) ∧
      (e.load_status = "no-op" ↔ e.inserted_row_count = 0) := by
  refine ⟨⟨ingestionId, payload.file_hash, payload.csv_path, payload.row_count,
    (db.raw.filter (fun rv => rv.source_file_hash == payload.file_hash)).length,
    (if (db.raw.filter
        (fun rv => rv.source_file_hash == payload.file_hash)).length ≠ 0
      then "success" else "no-op"),
    runId, t⟩, ?_, ?_, ?_, ?_⟩
  · rfl
  · exact (List.countP_eq_length_filter _ _).symm
  · dsimp only
    rcases Nat.eq_zero_or_pos (db.raw.filter
        (fun rv => rv.source_file_hash == payload.file_hash)).length with hz | hz
    · rw [hz]
      decide
    · rw [if_pos (by omega)]
      exact ⟨fun _ => by omega, fun _ => rfl⟩
  · dsimp only
    rcases Nat.eq_zero_or_pos (db.raw.filter
        (fun rv => rv.source_file_hash == payload.file_hash)).length with hz | hz
    · rw [hz]
      decide
    · rw [if_pos (by omega)]
      exact ⟨fun h => absurd h (by decide), fun h => absurd h (by omega)⟩

/-- Claim C3 (amended): the ledger entry appended by a load-branch run
records `inserted_row_count` equal to the number of raw rows tagged with
the run's file hash after the insert — the rows appended this run plus any
rows left by earlier runs of the same hash — with status `success` exactly
when that total is non-zero and `no-op` exactly when it is zero. It equals
the rows appended in this run only when no earlier load used the same
hash; when a previously ingested fingerprint reappears after other loads,
the entry reports the stale positive count with status `success`. -/
theorem c3_count_by_hash (db : DB) (inp : RunInput) (db1 : DB) (n : Nat)
    (hb : branchOnNewData (ensureSchema db) inp.payload = "load_csv_to_raw")
    (hl : loadCsvToRaw (ensureSchema db) inp.payload inp.file inp.t =
      some (db1, n)) :
    ∃ e : LedgerEntry,
      ledgerEntries (outcomeDb (runPipeline db inp)) = ledgerEntries db ++ [e] ∧
      e.inserted_row_count = n +
        db.raw.countP (fun rv => rv.source_file_hash == inp.payload.file_hash) ∧
      (e.load_status = "success" ↔ e.inserted_row_count ≠ 0) ∧
      (e.load_status = "no-op" ↔ e.inserted_row_count = 0) := by
  have hrun : runPipeline db inp = RunOutcome.completed
      (updateMetadata db1 inp.payload inp.ingestionId inp.runId inp.t)
      ((if n ≠ 0 then [Event.rawInsert n] else []) ++
        [Event.dbtTrigger, Event.ledgerAppend]) := by
    unfold runPipeline
    dsimp only
    rw [if_pos hb, hl]
  obtain ⟨rows, hp, hn, hraw, hmeta⟩ := loadCsvToRaw_spec _ _ _ _ _ _ hl
  obtain ⟨e, he1, he2, he3, he4⟩ :=
    updateMetadata_entry db1 inp.payload inp.ingestionId inp.runId inp.t
  refine ⟨e, ?_, ?_, he3, he4⟩
  · rw [hrun]
    show ledgerEntries
      (updateMetadata db1 inp.payload inp.ingestionId inp.runId inp.t) =
      ledgerEntries db ++ [e]
    rw [he1]
    congr 1
    unfold ledgerEntries
    rw [hmeta]
    rfl
  · rw [he2]
    have hensure : (ensureSchema db).raw = db.raw := rfl
    rw [hensure] at hraw
    rw [hraw, List.countP_append]
    have hall : (incremental_voters (ensureSchema db)
        (staged_voters rows inp.payload.file_hash inp.t)).countP
          (fun rv => rv.source_file_hash == inp.payload.file_hash) =
        (incremental_voters (ensureSchema db)
          (staged_voters rows inp.payload.file_hash inp.t)).length := by
      apply List.countP_eq_length.mpr
      intro sv hsv
      have hh := incremental_hash (ensureSchema db) rows inp.payload.file_hash
        inp.t sv hsv
      simp [hh]
    rw [hall, ← hn]
    omega

/-- Witness for C3 (amended): the first load of `sampleFile [1]` under hash
`a` appends an entry recording count 1 with status `success`. -/
theorem c3_count_by_hash_witness :
    branchOnNewData (ensureSchema emptyDB) (sampleInput [1] "a" 1).payload =
      "load_csv_to_raw" ∧
    loadCsvToRaw (ensureSchema emptyDB) (sampleInput [1] "a" 1).payload
      (sampleInput [1] "a" 1).file (sampleInput [1] "a" 1).t =
      some (sampleLoadedDB, 1) ∧
    (∃ e : LedgerEntry,
      ledgerEntries (outcomeDb (runPipeline emptyDB (sampleInput [1] "a" 1))) =
        ledgerEntries emptyDB ++ [e] ∧
      e.inserted_row_count = 1 + emptyDB.raw.countP
        (fun rv => rv.source_file_hash == (sampleInput [1] "a" 1).payload.file_hash) ∧
      (e.load_status = "success" ↔ e.inserted_row_count ≠ 0) ∧
      (e.load_status = "no-op" ↔ e.inserted_row_count = 0)) :=
  ⟨by decide, by decide,
    c3_count_by_hash emptyDB (sampleInput [1] "a" 1) sampleLoadedDB 1
      (by decide) (by decide)⟩

/-- Counterexample to C3 as stated: load hash `a` (id 1), then hash `b`
(ids 1 and 2), then hash `a` again. The third run appends zero rows — the
raw table stays at two rows — yet its ledger entry records
`inserted_row_count = 1` with status `success`, not 0 with `no-op`: the
count is taken over all raw rows tagged with hash `a`, not over the rows
appended in that run. -/
theorem c3_stale_count_cex :
    (ledgerEntries (runSeq emptyDB [sampleInput [1] "a" 1,
        sampleInput [1, 2] "b" 2, sampleInput [1] "a" 3])).map
      (fun e => (e.file_hash, e.inserted_row_count, e.load_status)) =
      [("a", 1, "success"), ("b", 1, "success"), ("a", 1, "success")] ∧
    (runSeq emptyDB [sampleInput [1] "a" 1, sampleInput [1, 2] "b" 2,
      sampleInput [1] "a" 3]).raw.length = 2 ∧
    (runSeq emptyDB [sampleInput [1] "a" 1,
      sampleInput [1, 2] "b" 2]).raw.length = 2 := by
  decide

/-- One DAG run preserves distinctness of raw-table ids, provided the
candidate file, when it parses, has pairwise-distinct ids. -/
theorem run_preserves_nodup (db : DB) (i : RunInput)
    (hfile : (((parseCsv i.file).getD []).map CsvRow.id).Nodup)
    (hdb : (db.raw.map VoterRow.id).Nodup) :
    ((outcomeDb (runPipeline db i)).raw.map VoterRow.id).Nodup := by
  unfold runPipeline
  dsimp only
  by_cases hb : branchOnNewData (ensureSchema db) i.payload = "load_csv_to_raw"
  · rw [if_pos hb]
    cases hl : loadCsvToRaw (ensureSchema db) i.payload i.file i.t with
    | none => exact hdb
    | some p =>
      obtain ⟨db1, n⟩ := p
      obtain ⟨rows, hp, hn, hraw, hmeta⟩ := loadCsvToRaw_spec _ _ _ _ _ _ hl
      have hensure : (ensureSchema db).raw = db.raw := rfl
      rw [hensure] at hraw
      have hfile2 : (rows.map CsvRow.id).Nodup := by
        rw [hp] at hfile
        exact hfile
      show (db1.raw.map VoterRow.id).Nodup
      rw [hraw, List.map_append, List.nodup_append]
      have hstagedNodup : ((staged_voters rows i.payload.file_hash i.t).map
          VoterRow.id).Nodup := by
        rw [staged_ids]
        exact hfile2
      refine ⟨hdb, ?_, ?_⟩
      · have hsub : (incremental_voters (ensureSchema db)
            (staged_voters rows i.payload.file_hash i.t)).Sublist
            (staged_voters rows i.payload.file_hash i.t) :=
          List.filter_sublist _
        exact List.Nodup.sublist (List.Sublist.map VoterRow.id hsub) hstagedNodup
      · intro a ha hmem
        obtain ⟨sv, hsv, hid⟩ := List.mem_map.mp hmem
        have hnotin := incremental_not_in_raw (ensureSchema db)
          (staged_voters rows i.payload.file_hash i.t) sv hsv
        rw [hensure] at hnotin
        rw [← hid] at ha
        exact hnotin ha
  · rw [if_neg hb]
    exact hdb

/-- A sequence of DAG runs preserves distinctness of raw-table ids when
every candidate file that parses has pairwise-distinct ids. -/
theorem runSeq_preserves_nodup (inputs : List RunInput) :
    ∀ db : DB,
    (∀ i ∈ inputs, (((parseCsv i.file).getD []).map CsvRow.id).Nodup) →
    (db.raw.map VoterRow.id).Nodup →
    ((runSeq db inputs).raw.map VoterRow.id).Nodup := by
  induction inputs with
  | nil => exact fun db _ hdb => hdb
  | cons i rest ih =>
    intro db h hdb
    show ((runSeq (outcomeDb (runPipeline db i)) rest).raw.map VoterRow.id).Nodup
    exact ih _ (fun j hj => h j (List.mem_cons_of_mem i hj))
      (run_preserves_nodup db i (h i (List.mem_cons_self i rest)) hdb)

/-- Claim C4 (amended): for every sequence of pipeline runs starting from
the empty database — including sequences re-ingesting supersets of earlier
rows — every id appears at most once in the raw table after every run,
PROVIDED each candidate file that parses carries pairwise-distinct ids;
the anti-join never deduplicates within a single staged file, so a file
with an internal duplicate id can break the invariant. -/
theorem c4_no_duplicate_ids (inputs : List RunInput)
    (h : ∀ i ∈ inputs, (((parseCsv i.file).getD []).map CsvRow.id).Nodup) :
    ((runSeq emptyDB inputs).raw.map VoterRow.id).Nodup :=
  runSeq_preserves_nodup inputs emptyDB h (by simp [emptyDB])

/-- Witness for C4 (amended): loading ids 1 then the superset 1 and 2
keeps all raw ids distinct. -/
theorem c4_no_duplicate_ids_witness :
    (∀ i ∈ [sampleInput [1] "a" 1, sampleInput [1, 2] "b" 2],
      (((parseCsv i.file).getD []).map CsvRow.id).Nodup) ∧
    ((runSeq emptyDB [sampleInput [1] "a" 1,
      sampleInput [1, 2] "b" 2]).raw.map VoterRow.id).Nodup :=
  ⟨by decide, c4_no_duplicate_ids _ (by decide)⟩

/-- Counterexample to C4 as stated: a single run on a file containing two
rows with id 1 leaves id 1 twice in the raw table — the anti-join filters
only against the raw table, not within the staged file. -/
theorem c4_duplicate_in_file_cex :
    ((runSeq emptyDB [sampleInput [1, 1] "a" 1]).raw.map VoterRow.id) = [1, 1] ∧
    ¬ ((runSeq emptyDB [sampleInput [1, 1] "a" 1]).raw.map VoterRow.id).Nodup := by
  decide

/-- Folding the chunks of a byte list back together restores the list, for
any positive chunk size, given enough fuel. -/
theorem readChunksAux_foldl (fuel : Nat) :
    ∀ (bs acc : List Nat) (c : Nat), c ≠ 0 → bs.length ≤ fuel →
      (readChunksAux fuel bs c).foldl (fun a chunk => a ++ chunk) acc =
        acc ++ bs := by
  induction fuel with
  | zero =>
    intro bs acc c _ hlen
    have hbs : bs = [] := List.length_eq_zero.mp (Nat.le_zero.mp hlen)
    subst hbs
    simp [readChunksAux]
  | succ fuel ih =>
    intro bs acc c hc hlen
    unfold readChunksAux
    by_cases hbs : bs = []
    · subst hbs
      simp
    · rw [if_neg (by simp [hc, hbs])]
      rw [List.foldl_cons]
      rw [ih (bs.drop c) (acc ++ bs.take c) c hc
        (by rw [List.length_drop]; omega)]
      rw [List.append_assoc, List.take_append_drop]

/-- For every positive chunk size, the chunked streaming hash equals the
SHA-256 of the whole byte stream. -/
theorem compute_file_hash_pos (bs : List Nat) (c : Nat) (hc : c ≠ 0) :
    compute_file_hash bs c = sha256hex bs := by
  unfold compute_file_hash readChunks
  rw [readChunksAux_foldl bs.length bs [] c hc (Nat.le_refl _)]
  rw [List.nil_append]

/-- Packing 32-bit words into one number stays below the corresponding
power bound. -/
theorem foldl_words_lt (ws : List Nat) :
    ∀ acc B : Nat, acc < B →
      ws.foldl (fun a w => a * 2 ^ 32 + w % 2 ^ 32) acc <
        B * (2 ^ 32) ^ ws.length := by
  induction ws with
  | nil =>
    intro acc B h
    simpa using h
  | cons w ws ih =>
    intro acc B h
    rw [List.foldl_cons]
    have hstep : acc * 2 ^ 32 + w % 2 ^ 32 < B * 2 ^ 32 := by
      have hw : w % 2 ^ 32 < 2 ^ 32 := Nat.mod_lt _ (by norm_num)
      calc acc * 2 ^ 32 + w % 2 ^ 32 < acc * 2 ^ 32 + 2 ^ 32 := by omega
        _ = (acc + 1) * 2 ^ 32 := by ring
        _ ≤ B * 2 ^ 32 := Nat.mul_le_mul_right _ (by omega)
    have hrec := ih (acc * 2 ^ 32 + w % 2 ^ 32) (B * 2 ^ 32) hstep
    rw [List.length_cons]
    exact lt_of_lt_of_eq hrec (by ring)

/-- Every SHA-256 digest value is below `2^256`. -/
theorem sha256Nat_lt (msg : List Nat) : sha256Nat msg < 2 ^ 256 := by
  unfold sha256Nat
  dsimp only
  have h := foldl_words_lt [(sha256Words msg).a, (sha256Words msg).b,
    (sha256Words msg).c, (sha256Words msg).d, (sha256Words msg).e,
    (sha256Words msg).f, (sha256Words msg).g, (sha256Words msg).h]
    0 1 Nat.one_pos
  exact lt_of_lt_of_eq h (by norm_num)

/-- SHA-256 digests collide: the hex digest is not injective on byte lists
(there are more 33-byte inputs than 256-bit digests). -/
theorem sha256hex_collision :
    ∃ b1 b2 : List Nat, b1 ≠ b2 ∧ sha256hex b1 = sha256hex b2 := by
  have hcard : Fintype.card (Fin (2 ^ 256)) < Fintype.card (Fin 33 → Fin 256) := by
    rw [Fintype.card_fun, Fintype.card_fin, Fintype.card_fin]
    norm_num
  obtain ⟨g1, g2, hne, heq⟩ := Fintype.exists_ne_map_eq_of_card_lt
    (fun g : Fin 33 → Fin 256 =>
      (⟨sha256Nat (List.ofFn fun i => (g i).val), sha256Nat_lt _⟩ : Fin (2 ^ 256)))
    hcard
  refine ⟨List.ofFn (fun i => (g1 i).val), List.ofFn (fun i => (g2 i).val),
    ?_, ?_⟩
  · intro hl
    apply hne
    have hfg : (fun i => ((g1 i).val : Nat)) = fun i => (g2 i).val :=
      List.ofFn_inj.mp hl
    funext i
    exact Fin.ext (congrFun hfg i)
  · simp only [Fin.mk.injEq] at heq
    unfold sha256hex
    rw [heq]

/-- Claim C10 (amended): for every positive chunk size, the fingerprint
digest is the SHA-256 of the file's bytes alone — identical bytes give
identical digests regardless of the (positive) chunk size used for
streaming, and a changed digest implies some byte changed. (The converse
fails in general: a 256-bit digest cannot distinguish all byte contents,
and chunk size 0 degenerates to hashing an empty stream.) -/
theorem c10_digest_of_bytes (bs1 bs2 : List Nat) (c1 c2 : Nat)
    (hc1 : 0 < c1) (hc2 : 0 < c2) :
    compute_file_hash bs1 c1 = sha256hex bs1 ∧
    (bs1 = bs2 → compute_file_hash bs1 c1 = compute_file_hash bs2 c2) ∧
    (compute_file_hash bs1 c1 ≠ compute_file_hash bs2 c2 → bs1 ≠ bs2) := by
  have h1 : compute_file_hash bs1 c1 = sha256hex bs1 :=
    compute_file_hash_pos bs1 c1 (by omega)
  have h2 : compute_file_hash bs2 c2 = sha256hex bs2 :=
    compute_file_hash_pos bs2 c2 (by omega)
  refine ⟨h1, ?_, ?_⟩
  · intro hbs
    subst hbs
    rw [h1, h2]
  · intro hne hbs
    subst hbs
    exact hne (by rw [h1, h2])

/-- Witness for C10 (amended): the byte `7` hashed with chunk sizes 3 and 5
gives the same digest, the SHA-256 of the byte stream itself. -/
theorem c10_digest_of_bytes_witness :
    0 < 3 ∧ 0 < 5 ∧
    (compute_file_hash [7] 3 = sha256hex [7] ∧
     (([7] : List Nat) = [7] → compute_file_hash [7] 3 = compute_file_hash [7] 5) ∧
     (compute_file_hash [7] 3 ≠ compute_file_hash [7] 5 → ([7] : List Nat) ≠ [7])) :=
  ⟨by decide, by decide,
    c10_digest_of_bytes [7] [7] 3 5 (by decide) (by decide)⟩

set_option maxRecDepth 100000 in
set_option maxHeartbeats 2000000 in
/-- Counterexample to C10 as stated: chunk size 0 makes the digest of a
non-empty file collapse to the empty-stream digest (so the result is not
independent of the chunk size), and distinct byte contents can share a
digest (so a byte change need not change the digest): a 256-bit digest is
not injective on byte lists. -/
theorem c10_digest_cex :
    compute_file_hash [1] 0 ≠ compute_file_hash [1] (1024 * 1024) ∧
    ∃ b1 b2 : List Nat, b1 ≠ b2 ∧ sha256hex b1 = sha256hex b2 :=
  ⟨by decide, sha256hex_collision⟩
